import Mathlib

/-!
Shallow embedding of the multi-site scraping engine in
`src/agent_scraping/diverse_scraper.py` (class `DiverseScraper`), plus the
one line of `src/agent_scraping/app_streamlit_scraping.py` that attaches the
`source` provenance label.  Texts are modelled as `List Char`; the unseeded
`random.choice` draws are modelled as explicit draw indices supplied as
arguments, `random.uniform` draws as explicit rational arguments; prices and
ratings, strings of numerals in the Python code, are modelled as the rational
numbers those numerals denote.
-/

namespace Scraper

/-- Texts are lists of characters. -/
abbrev Str := List Char

/-- Whitespace as matched by the `\s` class of `re` on the ASCII range
(space, tab, newline, carriage return, vertical tab, form feed). -/
def isPySpace (c : Char) : Bool :=
  c = ' ' || c = '\t' || c = '\n' || c = '\r' || c = '\x0b' || c = '\x0c'

/-- `str.strip()`: drop leading and trailing whitespace. -/
def pyStrip (s : Str) : Str :=
  ((s.dropWhile isPySpace).reverse.dropWhile isPySpace).reverse

/-- Helper for `collapseWS`: `prevSpace` records whether the previous
character belonged to a whitespace run already emitted as a space. -/
def collapseWSAux : Bool → Str → Str
  | _, [] => []
  | prevSpace, c :: cs =>
    if isPySpace c then
      if prevSpace then collapseWSAux true cs
      else ' ' :: collapseWSAux true cs
    else c :: collapseWSAux false cs

/-- `re.sub(r'\s+', ' ', s)`: every maximal run of whitespace becomes one
space. -/
def collapseWS (s : Str) : Str := collapseWSAux false s

/-- The three single-character `str.replace` calls of `_clean_text`:
`';' → ','`, `'\n' → ' '`, `'\r' → ' '`. -/
def replSpecial (c : Char) : Char :=
  if c = ';' then ','
  else if c = '\n' then ' '
  else if c = '\r' then ' '
  else c

/-- `DiverseScraper._clean_text` (diverse_scraper.py lines 142-148):
`re.sub(r'\s+', ' ', text.strip())`, then the `';'`/`'\n'`/`'\r'`
replacements, then truncation to 300 characters.  The `if not text` guard
returns `""`, which coincides with running the pipeline on `[]`. -/
def clean_text (s : Str) : Str :=
  ((collapseWS (pyStrip s)).map replSpecial).take 300

/-- `str.lower()` on the ASCII range. -/
def pyLower (s : Str) : Str := s.map Char.toLower

/-- Python substring containment `needle in hay`. -/
def containsSub (needle hay : Str) : Bool :=
  decide (needle <:+: hay)

/-- A character of the regex class `[\d,]`. -/
def isDigitOrComma (c : Char) : Bool := c.isDigit || c = ','

/-- The text matched by `[\d,]+\.?\d*` at the start of `s` (the first
character of `s` is assumed to be in `[\d,]`): the maximal `[\d,]` run,
then an optional dot followed by the maximal digit run. -/
def matchNumAt (s : Str) : Str :=
  let ds := s.takeWhile isDigitOrComma
  let rest := s.dropWhile isDigitOrComma
  if rest.head? = some '.' then ds ++ '.' :: rest.tail.takeWhile Char.isDigit
  else ds

/-- `re.search(r'[\d,]+\.?\d*', s)`: the leftmost match, if any. -/
def findNumMatch : Str → Option Str
  | [] => none
  | c :: cs => if isDigitOrComma c then some (matchNumAt (c :: cs)) else findNumMatch cs

/-- Numeric value of a digit string. -/
def digitsVal (l : Str) : Nat :=
  l.foldl (fun a c => a * 10 + (c.toNat - 48)) 0

/-- `float(m)` on a string `m` matched by `[\d,]+\.?\d*`: succeeds exactly
when the match is digits, optionally a dot and further digits (a comma in
the match makes `float` raise `ValueError`, which the source catches). -/
def pyFloatOfMatch (l : Str) : Option ℚ :=
  let ip := l.takeWhile Char.isDigit
  let rest := l.dropWhile Char.isDigit
  if rest = [] then
    if ip = [] then none else some (mkRat (digitsVal ip) 1)
  else if rest.head? = some '.' then
    let fp := rest.tail
    if ip ≠ [] ∧ fp.all Char.isDigit then
      some (mkRat (digitsVal ip * 10 ^ fp.length + digitsVal fp) (10 ^ fp.length))
    else none
  else none

/-- The fixed candidate set of `random.choice([19.99, 29.99, 49.99, 79.99,
99.99])`. -/
def priceDefaults : List ℚ :=
  [mkRat 1999 100, mkRat 2999 100, mkRat 4999 100, mkRat 7999 100, mkRat 9999 100]

/-- `DiverseScraper._extract_price` (diverse_scraper.py lines 150-161).
`elem` is the text of the matched price element (`none` when no selector
matched, in which case the element is falsy); `k` is the draw index
modelling the unseeded `random.choice`.  The price numeral string is
modelled by the rational it denotes. -/
def extract_price (elem : Option Str) (k : Nat) : ℚ :=
  match elem with
  | none => priceDefaults.getD (k % 5) 0
  | some txt =>
    let pt := (clean_text txt).filter (fun c => c ≠ ',')
    match findNumMatch pt with
    | some m =>
      match pyFloatOfMatch m with
      | some q => q
      | none => priceDefaults.getD (k % 5) 0
    | none => priceDefaults.getD (k % 5) 0

/-- The fixed candidate set of `random.choice([3, 3.5, 4, 4.5, 5])`. -/
def ratingDefaults : List ℚ := [3, mkRat 7 2, 4, mkRat 9 2, 5]

/-- Result of `select_one` for the title selector: the element's text and its
optional `title` attribute. -/
structure TitleEl where
  text : Str
  attr : Option Str
  deriving DecidableEq

/-- Result of `select_one` for the rating selector: the element's `class`
list and its text. -/
structure RatingEl where
  classes : List Str
  text : Str
  deriving DecidableEq

/-- An anchor element: its text and optional `href` attribute. -/
structure LinkEl where
  text : Str
  href : Option Str
  deriving DecidableEq

/-- One matched product container element.  The `select_one` sub-queries the
source performs on it are modelled by their results (`none` = no match);
`kPrice`, `kRatingNum`, `kRatingDef` are the draw indices for the unseeded
`random.choice` calls that extraction of this element may consume (price
default, the `_extract_price` call on the rating element, rating default). -/
structure ProductElement where
  titleElem : Option TitleEl
  priceElem : Option Str
  availElem : Option Str
  ratingElem : Option RatingEl
  descElem : Option Str
  vendorElem : Option Str
  linkElem : Option LinkEl
  ownText : Str
  kPrice : Nat
  kRatingNum : Nat
  kRatingDef : Nat
  deriving DecidableEq

/-- The canonical product record built by `_extract_product_data` and
`_create_product_from_json` (the numeral strings `prix` and `note_moyenne`
are modelled by the rationals they denote). -/
structure Product where
  titre : Str
  prix : ℚ
  disponibilite : Str
  note_moyenne : ℚ
  description : Str
  vendeur : Str
  categorie : Str
  lien_produit : Str
  deriving DecidableEq

/-- Drop the last path segment of a URL (everything after the final `/`). -/
def dropLastSegment (b : Str) : Str :=
  (b.reverse.dropWhile (fun c => c ≠ '/')).reverse

/-- Model of `urllib.parse.urljoin`, covering the cases exercised by this
development: an empty reference keeps the base, a reference with an
`http`/`https` scheme replaces the base, and any other reference replaces
the last path segment of the base. -/
def urljoin (base ref : Str) : Str :=
  if ref = [] then base
  else if ("http://".toList).isPrefixOf ref || ("https://".toList).isPrefixOf ref then ref
  else dropLastSegment base ++ ref

/-- Helper for `pyTitleCase`: `prevAlpha` records whether the previous
character was alphabetic. -/
def pyTitleAux : Bool → Str → Str
  | _, [] => []
  | prevAlpha, c :: cs =>
    if c.isAlpha then
      (if prevAlpha then c.toLower else c.toUpper) :: pyTitleAux true cs
    else c :: pyTitleAux false cs

/-- `str.title()` on the ASCII range: the first letter of each alphabetic
run is uppercased, the rest lowercased. -/
def pyTitleCase (s : Str) : Str := pyTitleAux false s

/-- Line 166-167 of `_extract_product_data`: the cleaned text of the title
element (the element is falsy when no selector matched, giving `""`). -/
def title_from_elem : Option TitleEl → Str
  | some te => clean_text te.text
  | none => clean_text []

/-- Lines 168-169 of `_extract_product_data`: when the title element has a
`title` attribute and the text was empty, fall back to the cleaned
attribute (`title or clean(...)`). -/
def title_with_attr (tE : Option TitleEl) (t0 : Str) : Str :=
  match tE with
  | some te =>
    (match te.attr with
     | some a => if t0 = [] then clean_text a else t0
     | none => t0)
  | none => t0

/-- The title resolution of `_extract_product_data` (lines 165-171): element
text, else the element's `title` attribute, else the first 100 characters of
the container's own text, each cleaned. -/
def extract_title (e : ProductElement) : Str :=
  let t1 := title_with_attr e.titleElem (title_from_elem e.titleElem)
  if t1 = [] then clean_text (e.ownText.take 100) else t1

/-- The availability classification of `_extract_product_data` (lines
177-183): default `"Disponible"`; `"Rupture"` when the cleaned, lowercased
matched text contains `"out"` or `"rupture"`. -/
def classify_avail (availElem : Option Str) : Str :=
  match availElem with
  | none => "Disponible".toList
  | some t =>
    let lt := pyLower (clean_text t)
    if containsSub ("out".toList) lt || containsSub ("rupture".toList) lt then
      "Rupture".toList
    else "Disponible".toList

/-- The `rating_map` scan of `_extract_product_data` (lines 190-195): the
first class in the list that is one of the ordinals One..Five. -/
def lookupRatingClass : List Str → Option ℚ
  | [] => none
  | c :: cs =>
    if c = "One".toList then some 1
    else if c = "Two".toList then some 2
    else if c = "Three".toList then some 3
    else if c = "Four".toList then some 4
    else if c = "Five".toList then some 5
    else lookupRatingClass cs

/-- The rating resolution of `_extract_product_data` (lines 186-199): if the
element carries a `star-rating` class, map its ordinal class through
`rating_map` (falling back to the rating default when no ordinal class is
present); otherwise run `_extract_price` on the element; when no rating
element matched, draw from the rating default set. -/
def extract_rating (relem : Option RatingEl) (kNum kDef : Nat) : ℚ :=
  match relem with
  | none => ratingDefaults.getD (kDef % 5) 0
  | some r =>
    if ("star-rating".toList) ∈ r.classes then
      match lookupRatingClass r.classes with
      | some v => v
      | none => ratingDefaults.getD (kDef % 5) 0
    else extract_price (some r.text) kNum

/-- The description resolution of `_extract_product_data` (lines 202-203 and
223): cleaned matched text, truncated to 200 characters plus `"..."` when
longer. -/
def extract_description (descElem : Option Str) : Str :=
  let d := clean_text (match descElem with | some t => t | none => [])
  if 200 < d.length then d.take 200 ++ ("...".toList) else d

/-- The category derivation of `_extract_product_data` (lines 210-212). -/
def extract_category (category_name : Str) : Str :=
  let category := pyTitleCase (category_name.map (fun c => if c = '_' then ' ' else c))
  if containsSub ("jsonplaceholder".toList) category_name then "Digital Content".toList
  else category

/-- The product link resolution of `_extract_product_data` (lines 215-216). -/
def extract_link (linkElem : Option LinkEl) (page_url : Str) : Str :=
  match linkElem with
  | some le =>
    match le.href with
    | some h => urljoin page_url h
    | none => page_url
  | none => page_url

/-- `DiverseScraper._extract_product_data` (diverse_scraper.py lines
163-227). -/
def extract_product_data (e : ProductElement) (category_name page_url : Str) : Product :=
  { titre := extract_title e
  , prix := extract_price e.priceElem e.kPrice
  , disponibilite := classify_avail e.availElem
  , note_moyenne := extract_rating e.ratingElem e.kRatingNum e.kRatingDef
  , description := extract_description e.descElem
  , vendeur := clean_text (match e.vendorElem with | some t => t | none => "N/A".toList)
  , categorie := extract_category category_name
  , lien_produit := extract_link e.linkElem page_url }

/-- One raw JSON object of a `jsonplaceholder` response, together with the
random draws its conversion may consume: `uPrice` models the
`random.uniform(9.99, 99.99)` draw, `kAvail` the availability choice,
`kRate` the rating choice.  String-valued keys are modelled as present
(`some`) or absent (`none`). -/
structure JsonItem where
  title : Option Str
  name : Option Str
  id : Option Int
  body : Option Str
  uPrice : ℚ
  kAvail : Nat
  kRate : Nat
  deriving DecidableEq

/-- `json_element.get('title', json_element.get('name', ''))`. -/
def json_get_title (it : JsonItem) : Str :=
  match it.title with
  | some t => t
  | none => match it.name with | some n => n | none => []

/-- `DiverseScraper._create_product_from_json` (diverse_scraper.py lines
229-252).  `round(float(id) * 2, 2)` is the exact integer `2 * id`, so no
rounding is modelled. -/
def create_product_from_json (it : JsonItem) (_category_name url : Str) : Product :=
  let title0 := clean_text ((json_get_title it).take 50)
  let title := if title0 = [] then "Digital Item".toList else title0
  let price : ℚ :=
    match it.id with
    | some i => mkRat (2 * i) 1
    | none => it.uPrice
  let body0 := match it.body with
    | some b => b
    | none => match it.title with | some t => t | none => []
  let desc0 := clean_text (body0.take 200)
  let desc := if desc0 = [] then "Digital content or media item.".toList else desc0
  { titre := title
  , prix := price
  , disponibilite := ["Disponible".toList, "Rupture".toList].getD (it.kAvail % 2) []
  , note_moyenne := ratingDefaults.getD (it.kRate % 5) 0
  , description := desc
  , vendeur := "Digital Store".toList
  , categorie := "Digital Content".toList
  , lien_produit := url }

/-- The parsed JSON body of a response: `response.json()` yields a list or a
single object. -/
inductive JsonData where
  | list : List JsonItem → JsonData
  | single : JsonItem → JsonData
  deriving DecidableEq

/-- A parsed document, modelled by the results of the two kinds of
`soup.select` query the source performs on it: container-selector queries
(yielding product elements) and pagination-selector queries (yielding
anchors). -/
structure Soup where
  elems : String → List ProductElement
  links : String → List LinkEl

/-- A successful `_make_request` response: its JSON parse (`some` exactly
when `response.json()` succeeds) and its parsed markup. -/
structure Response where
  json : Option JsonData
  soup : Soup

/-- The two members of the per-site selector dictionary consulted at page
level (`selectors.get('product_container', '.product')`, line 308, and
`selectors.get('pagination', '.pagination a')`, line 256); the per-field
`select_one` results are modelled inside `ProductElement`. -/
structure SelectorSet where
  product_container : Option String
  pagination : Option String

/-- `DiverseScraper._get_next_page_url` (diverse_scraper.py lines 254-262):
the first pagination anchor with an `href` whose cleaned lowercased text
contains one of `next`, `suivant`, `>`, `»`, resolved against the current
URL. -/
def get_next_page_url (links : List LinkEl) (current_url : Str) : Option Str :=
  match links with
  | [] => none
  | l :: ls =>
    match l.href with
    | some h =>
      let lt := pyLower (clean_text l.text)
      if ["next".toList, "suivant".toList, ">".toList, "»".toList].any
          (fun w => containsSub w lt) then
        some (urljoin current_url h)
      else get_next_page_url ls current_url
    | none => get_next_page_url ls current_url

/-- The alternative container selectors tried, in order, when the
configured container selector matches nothing (line 313). -/
def altSelectors : List String := ["article", ".item", ".product-item", "li", ".product-grid"]

/-- The alternative-selector loop of lines 313-317: the first selector in
the chain with a non-empty match set (empty if none has one). -/
def firstNonEmptyAlt (f : String → List ProductElement) : List String → List ProductElement
  | [] => []
  | s :: ss =>
    let r := f s
    if r = [] then firstNonEmptyAlt f ss else r

/-- The container resolution of `scrape_site_category` (lines 305-317):
the configured container selector, then the alternative chain. -/
def select_containers (soup : Soup) (sel : SelectorSet) : List ProductElement :=
  let primary := soup.elems (sel.product_container.getD ".product")
  if primary = [] then firstNonEmptyAlt soup.elems altSelectors else primary

/-- The per-element extraction loop of lines 325-334: extract each container
element, keeping the record exactly when its title is non-empty. -/
def process_elements (category_name page_url : Str) : List ProductElement → List Product
  | [] => []
  | e :: es =>
    let p := extract_product_data e category_name page_url
    if p.titre ≠ [] then p :: process_elements category_name page_url es
    else process_elements category_name page_url es

/-- The JSON list loop of lines 289-294. -/
def process_json_list (category_name url : Str) : List JsonItem → List Product
  | [] => []
  | it :: its =>
    let p := create_product_from_json it category_name url
    if p.titre ≠ [] then p :: process_json_list category_name url its
    else process_json_list category_name url its

/-- The JSON branch of `scrape_site_category` (lines 286-303). -/
def process_json (jd : JsonData) (category_name url : Str) : List Product :=
  match jd with
  | .list its => process_json_list category_name url its
  | .single it =>
    let p := create_product_from_json it category_name url
    if p.titre ≠ [] then [p] else []

/-- One iteration of the page loop of `scrape_site_category`
(diverse_scraper.py lines 280-339): the products this page contributes, and
the URL the loop continues with (`none` on every `break`: fetch failure,
JSON branch, no containers, no next link, next link equal to the current
URL). -/
def page_step (fetch : Str → Option Response) (isJson : Bool) (sel : SelectorSet)
    (category_name cur : Str) : List Product × Option Str :=
  match fetch cur with
  | none => ([], none)
  | some resp =>
    if isJson then
      match resp.json with
      | some jd => (process_json jd category_name cur, none)
      | none => ([], none)
    else
      let elems := select_containers resp.soup sel
      if elems = [] then ([], none)
      else
        let prods := process_elements category_name cur elems
        match get_next_page_url (resp.soup.links (sel.pagination.getD ".pagination a")) cur with
        | none => (prods, none)
        | some nxt => if nxt = cur then (prods, none) else (prods, some nxt)

/-- The page loop of `scrape_site_category` (diverse_scraper.py lines
276-341).  `fetch` is the outcome of `_make_request` per URL; the fuel
argument is `max_pages - page_count`, so the loop guard
`page_count < max_pages` is fuel exhaustion, and the guard on a falsy
`current_url` is the `cur = []` test.  Returns the collected products
together with the list of URLs fetched, in order. -/
def crawl_loop (fetch : Str → Option Response) (isJson : Bool) (sel : SelectorSet)
    (category_name : Str) : Nat → Str → List Product × List Str
  | 0, _ => ([], [])
  | Nat.succ n, cur =>
    if cur = [] then ([], [])
    else
      let st := page_step fetch isJson sel category_name cur
      match st.2 with
      | none => (st.1, [cur])
      | some nxt =>
        let r := crawl_loop fetch isJson sel category_name n nxt
        (st.1 ++ r.1, cur :: r.2)

/-- `DiverseScraper.scrape_site_category` (diverse_scraper.py lines
264-344): the JSON branch is taken exactly when the site name contains
`jsonplaceholder`; the extraction category name is
`f"{site_name}_{category_name}"`. -/
def scrape_site_category (fetch : Str → Option Response) (sel : SelectorSet)
    (site_name category_name base_url category_path : Str) (max_pages : Nat) :
    List Product × List Str :=
  crawl_loop fetch (containsSub ("jsonplaceholder".toList) site_name) sel
    (site_name ++ '_' :: category_name) max_pages (base_url ++ category_path)

/-- The attempt loop of `DiverseScraper._make_request` (diverse_scraper.py
lines 123-135).  `att i` is the outcome of HTTP attempt `i` (`none` models
`requests.RequestException`); `rem` is the number of attempts still allowed
and `i` the current attempt index.  Returns the result together with the
list of backoff sleeps (`2 ** attempt` seconds) performed, in order. -/
def make_request_aux (att : Nat → Option Response) (retries : Nat) :
    Nat → Nat → Option Response × List Nat
  | 0, _ => (none, [])
  | Nat.succ rem, i =>
    match att i with
    | some r => (some r, [])
    | none =>
      let rest := make_request_aux att retries rem (i + 1)
      if i < retries - 1 then (rest.1, 2 ^ i :: rest.2) else rest

/-- `DiverseScraper._make_request` with its default `retries=3`. -/
def make_request (att : Nat → Option Response) (retries : Nat) : Option Response × List Nat :=
  make_request_aux att retries retries 0

/-- The accumulation loop of `DiverseScraper.scrape_all_diverse_sites`
(diverse_scraper.py lines 346-381) over the flattened site × category list:
before each category the guard `total_products >= target_products` stops the
run (the nested per-site and per-category breaks behave as this single
linear scan); each category's batch is appended whole (`extend`), and the
`if category_products:` guard is the identity for empty batches. -/
def scrape_all_aux (target : Nat) : List (List Product) → Nat → List Product
  | [], _ => []
  | b :: bs, total =>
    if target ≤ total then []
    else b ++ scrape_all_aux target bs (total + b.length)

/-- `DiverseScraper.scrape_all_diverse_sites`, as a function of the
per-category batches it collects. -/
def scrape_all_diverse_sites (batches : List (List Product)) (target_products : Nat) :
    List Product :=
  scrape_all_aux target_products batches 0

/-- The `source` provenance label attached by `_extract_product_data` in
app_streamlit_scraping.py (line 540):
`category_name.split('_')[0] if '_' in category_name else category_name`. -/
def streamlitSourceLabel (category_name : Str) : Str :=
  if category_name.contains '_' then category_name.takeWhile (fun c => c ≠ '_')
  else category_name

/-! ## Shared lemmas -/

theorem replSpecial_ne (c : Char) :
    replSpecial c ≠ ';' ∧ replSpecial c ≠ '\n' ∧ replSpecial c ≠ '\r' := by
  unfold replSpecial
  split_ifs with h1 h2 h3
  · refine ⟨by decide, by decide, by decide⟩
  · refine ⟨by decide, by decide, by decide⟩
  · refine ⟨by decide, by decide, by decide⟩
  · exact ⟨h1, h2, h3⟩

theorem clean_text_spec (s : Str) :
    (clean_text s).length ≤ 300 ∧ ';' ∉ clean_text s ∧
    '\n' ∉ clean_text s ∧ '\r' ∉ clean_text s := by
  refine ⟨List.length_take_le _ _, ?_, ?_, ?_⟩ <;>
  · intro h
    have h' := List.take_subset _ _ h
    rw [List.mem_map] at h'
    obtain ⟨c, -, hc⟩ := h'
    have hr := replSpecial_ne c
    simp only [hc] at hr
    simp at hr

theorem semi_not_mem_clean (s : Str) : ';' ∉ clean_text s :=
  (clean_text_spec s).2.1

theorem getD_mem_of_lt {l : List ℚ} {n : Nat} (h : n < l.length) : l.getD n 0 ∈ l := by
  rw [List.getD_eq_getElem l 0 h]
  exact List.getElem_mem h

theorem priceDefault_mem (k : Nat) : priceDefaults.getD (k % 5) 0 ∈ priceDefaults :=
  getD_mem_of_lt (by have : k % 5 < 5 := Nat.mod_lt _ (by norm_num); simpa [priceDefaults])

theorem ratingDefault_mem (k : Nat) : ratingDefaults.getD (k % 5) 0 ∈ ratingDefaults :=
  getD_mem_of_lt (by have : k % 5 < 5 := Nat.mod_lt _ (by norm_num); simpa [ratingDefaults])

theorem priceDefault_nonneg (k : Nat) : 0 ≤ priceDefaults.getD (k % 5) 0 := by
  rcases (show k % 5 = 0 ∨ k % 5 = 1 ∨ k % 5 = 2 ∨ k % 5 = 3 ∨ k % 5 = 4 by omega)
    with h|h|h|h|h <;> rw [h] <;> decide

theorem ratingDefault_nonneg (k : Nat) : 0 ≤ ratingDefaults.getD (k % 5) 0 := by
  rcases (show k % 5 = 0 ∨ k % 5 = 1 ∨ k % 5 = 2 ∨ k % 5 = 3 ∨ k % 5 = 4 by omega)
    with h|h|h|h|h <;> rw [h] <;> decide

theorem pyFloatOfMatch_nonneg (l : Str) (q : ℚ) (h : pyFloatOfMatch l = some q) : 0 ≤ q := by
  unfold pyFloatOfMatch at h
  dsimp only at h
  split_ifs at h
  · rw [Option.some_inj] at h
    exact h ▸ Rat.mkRat_nonneg (by positivity) _
  · rw [Option.some_inj] at h
    exact h ▸ Rat.mkRat_nonneg (by positivity) _

theorem extract_price_nonneg (e : Option Str) (k : Nat) : 0 ≤ extract_price e k := by
  cases e with
  | none => exact priceDefault_nonneg k
  | some txt =>
    unfold extract_price
    dsimp only
    cases hm : findNumMatch ((clean_text txt).filter (fun c => decide (c ≠ ','))) with
    | none => exact priceDefault_nonneg k
    | some m =>
      dsimp only
      cases hq : pyFloatOfMatch m with
      | none => exact priceDefault_nonneg k
      | some q => exact pyFloatOfMatch_nonneg _ _ hq

theorem lookupRatingClass_nonneg (cs : List Str) (v : ℚ) (h : lookupRatingClass cs = some v) :
    0 ≤ v := by
  induction cs with
  | nil => simp [lookupRatingClass] at h
  | cons c cs ih =>
    unfold lookupRatingClass at h
    split_ifs at h <;> first
      | (rw [Option.some_inj] at h; subst h; norm_num)
      | exact ih h

theorem extract_rating_nonneg (r : Option RatingEl) (kNum kDef : Nat) :
    0 ≤ extract_rating r kNum kDef := by
  unfold extract_rating
  split
  · exact ratingDefault_nonneg kDef
  · split
    · split
      · exact lookupRatingClass_nonneg _ _ (by assumption)
      · exact ratingDefault_nonneg kDef
    · exact extract_price_nonneg _ _

/-! ## Record-quality predicates and lemmas -/

/-- The well-formedness the engine actually guarantees for an emitted
record: non-empty title, non-negative price and rating, availability among
the two literals (the spec's rating upper bound 5 is not among them). -/
def GoodRecord (p : Product) : Prop :=
  p.titre ≠ [] ∧ 0 ≤ p.prix ∧ 0 ≤ p.note_moyenne ∧
  (p.disponibilite = "Disponible".toList ∨ p.disponibilite = "Rupture".toList)

/-- The draws and ids a real `jsonplaceholder` response supplies: the
`random.uniform(9.99, 99.99)` draw lies in its support and the numeric `id`
is non-negative. -/
def GoodJsonItem (it : JsonItem) : Prop :=
  (∀ i, it.id = some i → 0 ≤ i) ∧ mkRat 999 100 ≤ it.uPrice

/-- The raw items of a parsed JSON body. -/
def jsonItems : JsonData → List JsonItem
  | .list its => its
  | .single it => [it]

/-- Every JSON item any response of `fetch` can deliver is well-drawn. -/
def GoodFetch (fetch : Str → Option Response) : Prop :=
  ∀ url r, fetch url = some r → ∀ jd, r.json = some jd → ∀ it ∈ jsonItems jd, GoodJsonItem it

theorem classify_avail_cases (a : Option Str) :
    classify_avail a = "Disponible".toList ∨ classify_avail a = "Rupture".toList := by
  unfold classify_avail
  cases a with
  | none => exact Or.inl rfl
  | some t =>
    dsimp only
    split_ifs
    · exact Or.inr rfl
    · exact Or.inl rfl

theorem extract_product_data_good (e : ProductElement) (cat url : Str)
    (ht : (extract_product_data e cat url).titre ≠ []) :
    GoodRecord (extract_product_data e cat url) :=
  ⟨ht, extract_price_nonneg _ _, extract_rating_nonneg _ _ _, classify_avail_cases _⟩

theorem create_product_from_json_titre (it : JsonItem) (cat url : Str) :
    (create_product_from_json it cat url).titre ≠ [] := by
  unfold create_product_from_json
  dsimp only
  split_ifs with h
  · decide
  · exact h

theorem create_product_from_json_good (it : JsonItem) (cat url : Str) (hg : GoodJsonItem it) :
    GoodRecord (create_product_from_json it cat url) := by
  refine ⟨create_product_from_json_titre it cat url, ?_, ?_, ?_⟩
  · unfold create_product_from_json
    dsimp only
    cases hid : it.id with
    | some i =>
      have hi := hg.1 i hid
      exact Rat.mkRat_nonneg (by omega) _
    | none =>
      calc (0 : ℚ) ≤ mkRat 999 100 := by decide
        _ ≤ it.uPrice := hg.2
  · exact ratingDefault_nonneg it.kRate
  · unfold create_product_from_json
    dsimp only
    rcases (show it.kAvail % 2 = 0 ∨ it.kAvail % 2 = 1 by omega) with h | h <;> rw [h]
    · exact Or.inl rfl
    · exact Or.inr rfl

theorem process_elements_good (cat url : Str) (es : List ProductElement) :
    ∀ p ∈ process_elements cat url es, GoodRecord p := by
  induction es with
  | nil => intro p hp; simp [process_elements] at hp
  | cons e es ih =>
    intro p hp
    unfold process_elements at hp
    dsimp only at hp
    split_ifs at hp with ht
    · rcases List.mem_cons.mp hp with h | h
      · exact h ▸ extract_product_data_good e cat url ht
      · exact ih p h
    · exact ih p hp

theorem process_json_list_good (cat url : Str) (its : List JsonItem)
    (hg : ∀ it ∈ its, GoodJsonItem it) :
    ∀ p ∈ process_json_list cat url its, GoodRecord p := by
  induction its with
  | nil => intro p hp; simp [process_json_list] at hp
  | cons it its ih =>
    intro p hp
    unfold process_json_list at hp
    dsimp only at hp
    split_ifs at hp with ht
    · rcases List.mem_cons.mp hp with h | h
      · exact h ▸ create_product_from_json_good it cat url (hg it (List.mem_cons_self it its))
      · exact ih (fun j hj => hg j (List.mem_cons_of_mem it hj)) p h
    · exact ih (fun j hj => hg j (List.mem_cons_of_mem it hj)) p hp

theorem process_json_good (jd : JsonData) (cat url : Str)
    (hg : ∀ it ∈ jsonItems jd, GoodJsonItem it) :
    ∀ p ∈ process_json jd cat url, GoodRecord p := by
  cases jd with
  | list its => exact process_json_list_good cat url its hg
  | single it =>
    intro p hp
    unfold process_json at hp
    dsimp only at hp
    split_ifs at hp
    · rcases List.mem_singleton.mp hp with h
      exact h ▸ create_product_from_json_good it cat url (hg it (by simp [jsonItems]))
    · simp at hp

theorem page_step_good (fetch : Str → Option Response) (isJson : Bool) (sel : SelectorSet)
    (cat cur : Str) (hf : GoodFetch fetch) :
    ∀ p ∈ (page_step fetch isJson sel cat cur).1, GoodRecord p := by
  intro p hp
  unfold page_step at hp
  split at hp
  · simp at hp
  · next resp hresp =>
    split_ifs at hp
    · split at hp
      · next jd hjd =>
        dsimp only at hp
        exact process_json_good jd cat cur (hf cur resp hresp jd hjd) p hp
      · simp at hp
    · dsimp only at hp
      split_ifs at hp
      · simp at hp
      · split at hp
        · exact process_elements_good cat cur _ p hp
        · split_ifs at hp <;> exact process_elements_good cat cur _ p hp

theorem crawl_loop_good (fetch : Str → Option Response) (isJson : Bool) (sel : SelectorSet)
    (cat : Str) (hf : GoodFetch fetch) :
    ∀ (n : Nat) (cur : Str), ∀ p ∈ (crawl_loop fetch isJson sel cat n cur).1, GoodRecord p := by
  intro n
  induction n with
  | zero => intro cur p hp; simp [crawl_loop] at hp
  | succ n ih =>
    intro cur p hp
    unfold crawl_loop at hp
    split_ifs at hp
    · simp at hp
    · dsimp only at hp
      split at hp
      · exact page_step_good fetch isJson sel cat cur hf p hp
      · dsimp only at hp
        rcases List.mem_append.mp hp with h | h
        · exact page_step_good fetch isJson sel cat cur hf p h
        · exact ih _ p h

/-! ## Crawl-shape lemmas -/

theorem crawl_loop_succ (fetch : Str → Option Response) (isJson : Bool) (sel : SelectorSet)
    (cat : Str) (n : Nat) (cur : Str) (hc : cur ≠ []) :
    crawl_loop fetch isJson sel cat (n + 1) cur =
      (match (page_step fetch isJson sel cat cur).2 with
       | none => ((page_step fetch isJson sel cat cur).1, [cur])
       | some nxt =>
         ((page_step fetch isJson sel cat cur).1 ++ (crawl_loop fetch isJson sel cat n nxt).1,
          cur :: (crawl_loop fetch isJson sel cat n nxt).2)) := by
  conv_lhs => rw [crawl_loop]
  rw [if_neg hc]

theorem page_step_next_ne (fetch : Str → Option Response) (isJson : Bool) (sel : SelectorSet)
    (cat cur nxt : Str) (h : (page_step fetch isJson sel cat cur).2 = some nxt) : nxt ≠ cur := by
  revert h
  unfold page_step
  split
  · intro h; simp at h
  · split_ifs
    · split
      · intro h; simp at h
      · intro h; simp at h
    · dsimp only
      split_ifs
      · intro h; simp at h
      · split
        · intro h; simp at h
        · split_ifs with hne
          · intro h; simp at h
          · intro h
            dsimp only at h
            rw [Option.some_inj] at h
            exact h ▸ hne

theorem crawl_loop_visited_head (fetch : Str → Option Response) (isJson : Bool)
    (sel : SelectorSet) (cat : Str) (n : Nat) (cur x : Str) (l : List Str)
    (h : (crawl_loop fetch isJson sel cat n cur).2 = x :: l) : x = cur := by
  cases n with
  | zero => simp [crawl_loop] at h
  | succ n =>
    by_cases hc : cur = []
    · simp [crawl_loop, hc] at h
    · rw [crawl_loop_succ fetch isJson sel cat n cur hc] at h
      revert h
      cases hst : (page_step fetch isJson sel cat cur).2 <;> intro h <;> dsimp only at h
      · exact ((List.cons.injEq ..).mp h.symm).1
      · exact ((List.cons.injEq ..).mp h.symm).1

theorem crawl_loop_chain (fetch : Str → Option Response) (isJson : Bool) (sel : SelectorSet)
    (cat : Str) : ∀ (n : Nat) (cur : Str),
    List.Chain' (fun a b => a ≠ b) (crawl_loop fetch isJson sel cat n cur).2 := by
  intro n
  induction n with
  | zero => intro cur; simp [crawl_loop]
  | succ n ih =>
    intro cur
    by_cases hc : cur = []
    · simp [crawl_loop, hc]
    · rw [crawl_loop_succ fetch isJson sel cat n cur hc]
      cases hst : (page_step fetch isJson sel cat cur).2 with
      | none => simp
      | some nxt =>
        dsimp only
        rw [List.chain'_cons']
        refine ⟨?_, ih nxt⟩
        intro b hb
        cases hv : (crawl_loop fetch isJson sel cat n nxt).2 with
        | nil => simp [hv] at hb
        | cons x l =>
          rw [hv] at hb
          simp only [List.head?_cons, Option.mem_def, Option.some_inj] at hb
          have hx := crawl_loop_visited_head fetch isJson sel cat n nxt x l hv
          rw [← hb, hx]
          exact (page_step_next_ne fetch isJson sel cat cur nxt hst).symm

theorem crawl_loop_length_le (fetch : Str → Option Response) (isJson : Bool) (sel : SelectorSet)
    (cat : Str) : ∀ (n : Nat) (cur : Str),
    (crawl_loop fetch isJson sel cat n cur).2.length ≤ n := by
  intro n
  induction n with
  | zero => intro cur; simp [crawl_loop]
  | succ n ih =>
    intro cur
    by_cases hc : cur = []
    · simp [crawl_loop, hc]
    · rw [crawl_loop_succ fetch isJson sel cat n cur hc]
      cases hst : (page_step fetch isJson sel cat cur).2 with
      | none => simp
      | some nxt => simpa using ih nxt

theorem crawl_loop_one (fetch : Str → Option Response) (isJson : Bool) (sel : SelectorSet)
    (cat cur : Str) (hc : cur ≠ []) :
    crawl_loop fetch isJson sel cat 1 cur = ((page_step fetch isJson sel cat cur).1, [cur]) := by
  rw [crawl_loop_succ fetch isJson sel cat 0 cur hc]
  cases hst : (page_step fetch isJson sel cat cur).2 with
  | none => rfl
  | some nxt => simp [crawl_loop]

theorem page_step_fetch_fail (fetch : Str → Option Response) (isJson : Bool) (sel : SelectorSet)
    (cat cur : Str) (h : fetch cur = none) :
    page_step fetch isJson sel cat cur = ([], none) := by
  unfold page_step
  rw [h]

theorem crawl_loop_fail_second (fetch : Str → Option Response) (isJson : Bool)
    (sel : SelectorSet) (cat : Str) (cur nxt : Str) (n : Nat) (hc : cur ≠ []) (hn : nxt ≠ [])
    (hst : (page_step fetch isJson sel cat cur).2 = some nxt) (hfail : fetch nxt = none) :
    crawl_loop fetch isJson sel cat (n + 2) cur =
      ((page_step fetch isJson sel cat cur).1, [cur, nxt]) := by
  have h2 : crawl_loop fetch isJson sel cat (n + 1) nxt = ([], [nxt]) := by
    rw [crawl_loop_succ fetch isJson sel cat n nxt hn,
      page_step_fetch_fail fetch isJson sel cat nxt hfail]
  show crawl_loop fetch isJson sel cat (n + 1 + 1) cur = _
  rw [crawl_loop_succ fetch isJson sel cat (n + 1) cur hc, hst]
  simp [h2]

/-! ## JSON-cardinality and aggregation lemmas -/

theorem process_json_list_map (cat url : Str) (its : List JsonItem) :
    process_json_list cat url its = its.map (fun it => create_product_from_json it cat url) := by
  induction its with
  | nil => rfl
  | cons it its ih =>
    unfold process_json_list
    dsimp only
    rw [if_pos (create_product_from_json_titre it cat url), ih]
    rfl

theorem scrape_all_aux_prefix (target : Nat) :
    ∀ (bs : List (List Product)) (total : Nat),
    ∃ k, scrape_all_aux target bs total = (bs.take k).flatten := by
  intro bs
  induction bs with
  | nil => intro total; exact ⟨0, rfl⟩
  | cons b bs ih =>
    intro total
    unfold scrape_all_aux
    split_ifs
    · exact ⟨0, rfl⟩
    · obtain ⟨k, hk⟩ := ih (total + b.length)
      exact ⟨k + 1, by rw [hk]; simp⟩

theorem page_step_html (fetch : Str → Option Response) (sel : SelectorSet)
    (cat cur : Str) (r : Response) (hr : fetch cur = some r)
    (he : select_containers r.soup sel ≠ []) :
    (page_step fetch false sel cat cur).1
      = process_elements cat cur (select_containers r.soup sel) := by
  unfold page_step
  split
  · next hnone => rw [hr] at hnone; simp at hnone
  · next resp hsome =>
    rw [hr, Option.some_inj] at hsome
    subst hsome
    rw [if_neg (by decide : ¬ (false = true))]
    try dsimp only
    rw [if_neg he]
    try dsimp only
    cases hn : get_next_page_url (r.soup.links (sel.pagination.getD ".pagination a")) cur with
    | none => rfl
    | some nxt =>
      try dsimp only
      split_ifs <;> rfl

/-! ## Concrete fixtures -/

/-- A product element carrying only a title. -/
def elemTitled : ProductElement :=
  { titleElem := some ⟨"Book A".toList, none⟩, priceElem := none, availElem := none,
    ratingElem := none, descElem := none, vendorElem := none, linkElem := none,
    ownText := [], kPrice := 0, kRatingNum := 0, kRatingDef := 0 }

/-- A titled element whose rating element carries no `star-rating` class and
has text `"10"`. -/
def elemRatingTen : ProductElement :=
  { titleElem := some ⟨"Book A".toList, none⟩, priceElem := none, availElem := none,
    ratingElem := some ⟨[], "10".toList⟩, descElem := none, vendorElem := none, linkElem := none,
    ownText := [], kPrice := 0, kRatingNum := 0, kRatingDef := 0 }

/-- A titled element whose product link `href` contains a semicolon. -/
def elemSemicolonLink : ProductElement :=
  { titleElem := some ⟨"Book A".toList, none⟩, priceElem := none, availElem := none,
    ratingElem := none, descElem := none, vendorElem := none,
    linkElem := some ⟨[], some ("http://x/a;b".toList)⟩,
    ownText := [], kPrice := 0, kRatingNum := 0, kRatingDef := 0 }

def urlA : Str := "http://s/1".toList

def urlB : Str := "http://s/2".toList

/-- Page 1 of the synthetic two-page site: its next link points to page 2. -/
def soupToB : Soup := ⟨fun _ => [elemTitled], fun _ => [⟨"next".toList, some urlB⟩]⟩

/-- Page 2 of the synthetic two-page site: its next link points back to
page 1. -/
def soupToA : Soup := ⟨fun _ => [elemTitled], fun _ => [⟨"next".toList, some urlA⟩]⟩

/-- The synthetic two-page cyclic site. -/
def fetchCyclic : Str → Option Response := fun u =>
  if u = urlA then some ⟨none, soupToB⟩
  else if u = urlB then some ⟨none, soupToA⟩
  else none

/-- An empty selector dictionary: every page-level lookup falls back to its
default. -/
def selDefault : SelectorSet := ⟨none, none⟩

/-- An HTML soup whose only non-empty container selector is the first
alternative, `article`. -/
def soupAltOnly : Soup := ⟨fun s => if s = "article" then [elemTitled] else [], fun _ => []⟩

/-! ## Character-origin lemmas for the no-digit price default -/

theorem mem_pyStrip {c : Char} {s : Str} (h : c ∈ pyStrip s) : c ∈ s := by
  unfold pyStrip at h
  rw [List.mem_reverse] at h
  have h1 := (List.dropWhile_sublist _).subset h
  rw [List.mem_reverse] at h1
  exact (List.dropWhile_sublist _).subset h1

theorem mem_collapseWSAux {c : Char} : ∀ (b : Bool) (s : Str),
    c ∈ collapseWSAux b s → c = ' ' ∨ c ∈ s := by
  intro b s
  induction s generalizing b with
  | nil => intro h; simp [collapseWSAux] at h
  | cons d ds ih =>
    intro h
    unfold collapseWSAux at h
    split_ifs at h with h1 h2
    · rcases ih true h with h' | h'
      · exact Or.inl h'
      · exact Or.inr (List.mem_cons_of_mem d h')
    · rcases List.mem_cons.mp h with h' | h'
      · exact Or.inl h'
      · rcases ih true h' with h'' | h''
        · exact Or.inl h''
        · exact Or.inr (List.mem_cons_of_mem d h'')
    · rcases List.mem_cons.mp h with h' | h'
      · exact Or.inr (h' ▸ List.mem_cons_self d ds)
      · rcases ih false h' with h'' | h''
        · exact Or.inl h''
        · exact Or.inr (List.mem_cons_of_mem d h'')

theorem replSpecial_cases (c : Char) :
    replSpecial c = ',' ∨ replSpecial c = ' ' ∨ replSpecial c = c := by
  unfold replSpecial
  split_ifs <;> simp

theorem mem_clean_text {c : Char} {s : Str} (h : c ∈ clean_text s) :
    c = ',' ∨ c = ' ' ∨ c ∈ s := by
  have h1 := List.take_subset _ _ h
  rw [List.mem_map] at h1
  obtain ⟨d, hd, hdc⟩ := h1
  rcases replSpecial_cases d with h' | h' | h'
  · exact Or.inl (hdc.symm.trans h')
  · exact Or.inr (Or.inl (hdc.symm.trans h'))
  · rw [h'] at hdc
    subst hdc
    rcases mem_collapseWSAux false (pyStrip s) hd with h'' | h''
    · exact Or.inr (Or.inl h'')
    · exact Or.inr (Or.inr (mem_pyStrip h''))

theorem findNumMatch_none : ∀ {l : Str}, (∀ c ∈ l, isDigitOrComma c = false) →
    findNumMatch l = none := by
  intro l
  induction l with
  | nil => intro h; rfl
  | cons c cs ih =>
    intro h
    have hc := h c (List.mem_cons_self c cs)
    unfold findNumMatch
    simp only [hc, Bool.false_eq_true, if_false]
    exact ih (fun d hd => h d (List.mem_cons_of_mem c hd))

theorem extract_price_no_digit {txt : Str} (k : Nat) (hd : ∀ c ∈ txt, c.isDigit = false) :
    extract_price (some txt) k ∈ priceDefaults := by
  unfold extract_price
  try dsimp only
  rw [findNumMatch_none ?hnd]
  · exact priceDefault_mem k
  case hnd =>
    intro c hc
    have hcf := List.mem_filter.mp hc
    have hne : c ≠ ',' := by simpa using hcf.2
    rcases mem_clean_text hcf.1 with h' | h' | h'
    · exact absurd h' hne
    · subst h'; rfl
    · unfold isDigitOrComma
      rw [hd c h']
      simp [hne]

/-! ## Claim theorems -/

/-- **C2, counterexample.**  On the synthetic two-page site whose page-2
next link resolves back to page 1, a crawl with the default `max_pages = 10`
fetches ten pages, alternating between the two URLs: the walker re-fetches
previously-visited URLs (the visited sequence is not duplicate-free) and
does not terminate after visiting page 2. -/
theorem C2_counterexample :
    (crawl_loop fetchCyclic false selDefault ("books_demo_travel".toList) 10 urlA).2
      = [urlA, urlB, urlA, urlB, urlA, urlB, urlA, urlB, urlA, urlB]
    ∧ ¬ List.Nodup (crawl_loop fetchCyclic false selDefault ("books_demo_travel".toList) 10 urlA).2 :=
  ⟨by decide, by decide⟩

/-- **C2, amended.**  The walker keeps no visited set: pagination ends only
when no next URL is found, when the resolved next URL equals the *current*
URL, or when the page cap is reached.  Hence consecutively fetched URLs are
always distinct, and the number of fetched pages never exceeds the cap, but
earlier pages can be re-fetched (on the cyclic two-page site the walker
alternates between the two pages until the cap, as the counterexample
shows). -/
theorem C2_pagination_guard :
    ∀ (fetch : Str → Option Response) (isJson : Bool) (sel : SelectorSet) (cat : Str)
      (n : Nat) (cur : Str),
      List.Chain' (fun a b => a ≠ b) (crawl_loop fetch isJson sel cat n cur).2
      ∧ (crawl_loop fetch isJson sel cat n cur).2.length ≤ n :=
  fun fetch isJson sel cat n cur =>
    ⟨crawl_loop_chain fetch isJson sel cat n cur, crawl_loop_length_le fetch isJson sel cat n cur⟩

/-- **C4.**  Price extraction is deterministic on numeric text and total
otherwise: on the text `"Price: 1,234.50"` it returns 1234.50 (= 2469/2,
thousands separator removed before parsing) whatever the random draw; on
any text with no digit, and for a missing price element, it returns a
member of the fixed candidate set {19.99, 29.99, 49.99, 79.99, 99.99};
being a total function into ℚ, it never raises and never returns an absent
value. -/
theorem C4_price_extraction :
    (∀ k, extract_price (some ("Price: 1,234.50".toList)) k = mkRat 2469 2)
  ∧ (∀ txt k, (∀ c ∈ txt, c.isDigit = false) → extract_price (some txt) k ∈ priceDefaults)
  ∧ (∀ k, extract_price none k ∈ priceDefaults) :=
  ⟨fun _ => rfl, fun _ k hd => extract_price_no_digit k hd, fun k => priceDefault_mem k⟩

/-- Witness for C4: at the digit-free text `"no digits here"` and draw 3
the result is in the candidate set. -/
theorem C4_witness :
    extract_price (some ("no digits here".toList)) 3 ∈ priceDefaults :=
  C4_price_extraction.2.1 ("no digits here".toList) 3 (by decide)

/-- **C5.**  The page counter never exceeds the configured cap (the number
of fetched pages is at most `max_pages`), and with `max_pages = 1` on a
markup page with containers and a valid next link, the crawl performs
exactly one fetch, collects exactly page 1's extracted products, and
terminates. -/
theorem C5_page_cap :
    (∀ (fetch : Str → Option Response) (isJson : Bool) (sel : SelectorSet) (cat : Str)
       (n : Nat) (cur : Str), (crawl_loop fetch isJson sel cat n cur).2.length ≤ n)
  ∧ (∀ (fetch : Str → Option Response) (sel : SelectorSet) (cat cur : Str) (r : Response)
       (nxt : Str), cur ≠ [] → fetch cur = some r →
      select_containers r.soup sel ≠ [] →
      get_next_page_url (r.soup.links (sel.pagination.getD ".pagination a")) cur = some nxt →
      crawl_loop fetch false sel cat 1 cur
        = (process_elements cat cur (select_containers r.soup sel), [cur])) := by
  constructor
  · intro fetch isJson sel cat n cur
    exact crawl_loop_length_le fetch isJson sel cat n cur
  · intro fetch sel cat cur r nxt hc hr he _hn
    rw [crawl_loop_one fetch false sel cat cur hc, page_step_html fetch sel cat cur r hr he]

/-- Witness for C5: page 1 of the cyclic fixture site, crawled with cap 1,
yields exactly its own products and one fetched URL. -/
theorem C5_witness :
    crawl_loop fetchCyclic false selDefault ("books_demo_travel".toList) 1 urlA
      = (process_elements ("books_demo_travel".toList) urlA
          (select_containers soupToB selDefault), [urlA]) :=
  C5_page_cap.2 fetchCyclic selDefault ("books_demo_travel".toList) urlA ⟨none, soupToB⟩ urlB
    (by decide) rfl (by decide) (by decide)

/-- **C6.**  Container fallback order: in any fallback chain, if selector A
matches nothing and selector B matches a non-empty set, the engine uses
exactly B's matches, regardless of the selectors after B; in particular,
when the configured container selector matches nothing and the first
alternative selector `article` matches a non-empty set, the page is
processed with exactly the `article` matches. -/
theorem C6_fallback_order :
    (∀ (f : String → List ProductElement) (A B : String) (cs : List String),
      f A = [] → f B ≠ [] → firstNonEmptyAlt f (A :: B :: cs) = f B)
  ∧ (∀ (soup : Soup) (sel : SelectorSet),
      soup.elems (sel.product_container.getD ".product") = [] →
      soup.elems "article" ≠ [] →
      select_containers soup sel = soup.elems "article") := by
  have hhead : ∀ (f : String → List ProductElement) (s : String) (ss : List String),
      f s ≠ [] → firstNonEmptyAlt f (s :: ss) = f s := by
    intro f s ss h
    unfold firstNonEmptyAlt
    try dsimp only
    rw [if_neg h]
  have hskip : ∀ (f : String → List ProductElement) (s : String) (ss : List String),
      f s = [] → firstNonEmptyAlt f (s :: ss) = firstNonEmptyAlt f ss := by
    intro f s ss h
    conv_lhs => rw [firstNonEmptyAlt]
    try dsimp only
    rw [if_pos h]
  constructor
  · intro f A B cs hA hB
    rw [hskip f A _ hA, hhead f B _ hB]
  · intro soup sel hp hB
    unfold select_containers
    try dsimp only
    rw [if_pos hp]
    unfold altSelectors
    rw [hhead soup.elems "article" _ hB]

/-- Witness for C6: a soup whose only non-empty selector is `article`. -/
theorem C6_witness :
    select_containers soupAltOnly selDefault = soupAltOnly.elems "article" :=
  C6_fallback_order.2 soupAltOnly selDefault (by decide) (by decide)

/-! ## Fixtures and theorems for the remaining claims -/

/-- A well-drawn JSON item: title present, id 3, uniform draw 20. -/
def jsonItemEx : JsonItem :=
  ⟨some ("Post One".toList), none, some 3, some ("A body".toList), mkRat 20 1, 0, 0⟩

/-- A single-page JSON site serving `jsonItemEx`. -/
def fetchJsonEx : Str → Option Response := fun u =>
  if u = urlA then some ⟨some (JsonData.list [jsonItemEx]), soupToB⟩ else none

/-- A titled JSON item. -/
def jsonTitled (t : String) (i : Int) : JsonItem :=
  ⟨some t.toList, none, some i, none, mkRat 20 1, 0, 0⟩

/-- A JSON item with neither `title` nor `name` key. -/
def jsonNoTitle : JsonItem := ⟨none, none, some 3, none, mkRat 20 1, 0, 0⟩

/-- Five JSON objects, four with non-empty derivable titles and one
without. -/
def jsonItems5 : List JsonItem :=
  [jsonTitled "Alpha" 1, jsonTitled "Beta" 2, jsonNoTitle, jsonTitled "Gamma" 4,
   jsonTitled "Delta" 5]

/-- A JSON category endpoint serving `jsonItems5`. -/
def fetchJson5 : Str → Option Response := fun u =>
  if u = ("http://jp/posts".toList) then some ⟨some (JsonData.list jsonItems5), soupToB⟩
  else none

/-- A JSON item whose availability draw selects the second candidate. -/
def jsonAvailDraw1 : JsonItem := ⟨some ("Post".toList), none, some 1, none, mkRat 20 1, 1, 0⟩

theorem create_product_from_json_dispo (it : JsonItem) (cat url : Str) :
    (create_product_from_json it cat url).disponibilite = "Disponible".toList
    ∨ (create_product_from_json it cat url).disponibilite = "Rupture".toList := by
  unfold create_product_from_json
  try dsimp only
  rcases (show it.kAvail % 2 = 0 ∨ it.kAvail % 2 = 1 by omega) with h | h <;> rw [h]
  · exact Or.inl rfl
  · exact Or.inr rfl

theorem create_product_from_json_title_sub (it : JsonItem) (cat url : Str)
    (h : clean_text ((json_get_title it).take 50) = []) :
    (create_product_from_json it cat url).titre = "Digital Item".toList := by
  unfold create_product_from_json
  try dsimp only
  rw [if_pos h]

theorem title_from_elem_no_semi (tE : Option TitleEl) : ';' ∉ title_from_elem tE := by
  cases tE with
  | none => exact semi_not_mem_clean _
  | some te => exact semi_not_mem_clean _

theorem title_with_attr_no_semi (tE : Option TitleEl) (t0 : Str) (h0 : ';' ∉ t0) :
    ';' ∉ title_with_attr tE t0 := by
  cases tE with
  | none => exact h0
  | some te =>
    cases hta : te.attr with
    | none => simp only [title_with_attr, hta]; exact h0
    | some a =>
      simp only [title_with_attr, hta]
      split_ifs with h
      · exact semi_not_mem_clean _
      · exact h0

theorem extract_title_no_semi (e : ProductElement) : ';' ∉ extract_title e := by
  unfold extract_title
  try dsimp only
  split_ifs with h
  · exact semi_not_mem_clean _
  · exact title_with_attr_no_semi _ _ (title_from_elem_no_semi _)

theorem extract_description_no_semi (d : Option Str) : ';' ∉ extract_description d := by
  unfold extract_description
  try dsimp only
  split_ifs with h
  · intro hm
    rcases List.mem_append.mp hm with h' | h'
    · exact semi_not_mem_clean _ (List.take_subset _ _ h')
    · exact absurd h' (by decide)
  · exact semi_not_mem_clean _

/-- **C1, counterexample.**  A kept markup record whose rating element
carries no `star-rating` class and has text `"10"`: the record is emitted
(non-empty title) and its rating is 10, violating the claimed bound
`rating ≤ 5`. -/
theorem C1_counterexample :
    process_elements ("books_demo_travel".toList) urlA [elemRatingTen]
      = [extract_product_data elemRatingTen ("books_demo_travel".toList) urlA]
    ∧ (extract_product_data elemRatingTen ("books_demo_travel".toList) urlA).titre ≠ []
    ∧ ¬ ((extract_product_data elemRatingTen ("books_demo_travel".toList) urlA).note_moyenne ≤ 5) :=
  ⟨by decide, by decide, by decide⟩

/-- **C1, amended.**  For every CanonicalProduct record kept by a crawl
(markup or JSON path), the title is non-empty, the price and the rating are
non-negative, and the availability is `Disponible` or `Rupture` — provided
every JSON item the fetch layer can deliver has a non-negative id and a
uniform price draw in its support (the rating bound `≤ 5` does not hold in
general: a markup rating parsed from free numeric text can exceed 5, as the
counterexample shows). -/
theorem C1_kept_record_invariant :
    ∀ (fetch : Str → Option Response) (isJson : Bool) (sel : SelectorSet) (cat : Str)
      (n : Nat) (cur : Str), GoodFetch fetch →
      ∀ p ∈ (crawl_loop fetch isJson sel cat n cur).1,
        p.titre ≠ [] ∧ 0 ≤ p.prix ∧ 0 ≤ p.note_moyenne ∧
        (p.disponibilite = "Disponible".toList ∨ p.disponibilite = "Rupture".toList) :=
  fun fetch isJson sel cat n cur hf => crawl_loop_good fetch isJson sel cat hf n cur

/-- Witness for C1: the record the JSON fixture crawl keeps satisfies the
invariant. -/
theorem C1_witness :
    (create_product_from_json jsonItemEx ("jsonplaceholder_posts".toList) urlA).titre ≠ []
    ∧ 0 ≤ (create_product_from_json jsonItemEx ("jsonplaceholder_posts".toList) urlA).prix
    ∧ 0 ≤ (create_product_from_json jsonItemEx ("jsonplaceholder_posts".toList) urlA).note_moyenne
    ∧ ((create_product_from_json jsonItemEx ("jsonplaceholder_posts".toList) urlA).disponibilite
          = "Disponible".toList
       ∨ (create_product_from_json jsonItemEx ("jsonplaceholder_posts".toList) urlA).disponibilite
          = "Rupture".toList) := by
  have hg : GoodFetch fetchJsonEx := by
    intro url r hr jd hjd it hit
    unfold fetchJsonEx at hr
    split_ifs at hr with hu
    · rw [Option.some_inj] at hr
      subst hr
      simp only [Option.some_inj] at hjd
      subst hjd
      simp only [jsonItems, List.mem_singleton] at hit
      subst hit
      constructor
      · intro i hi
        simp only [jsonItemEx, Option.some_inj] at hi
        omega
      · decide
  have h := C1_kept_record_invariant fetchJsonEx true selDefault
    ("jsonplaceholder_posts".toList) 1 urlA hg
  exact h (create_product_from_json jsonItemEx ("jsonplaceholder_posts".toList) urlA) (by decide)

/-- **C3, counterexample.**  A JSON category whose response is a list of 5
objects, exactly 4 of which have a non-empty derivable title: the crawl
emits 5 records, not 4 — the title-less item is emitted with the substitute
title `"Digital Item"` rather than dropped. -/
theorem C3_counterexample :
    ((jsonItems5.filter (fun it => clean_text ((json_get_title it).take 50) ≠ [])).length = 4)
    ∧ ((scrape_site_category fetchJson5 selDefault ("jsonplaceholder".toList) ("posts".toList)
          ("http://jp".toList) ("/posts".toList) 10).1.length = 5)
    ∧ (((scrape_site_category fetchJson5 selDefault ("jsonplaceholder".toList) ("posts".toList)
          ("http://jp".toList) ("/posts".toList) 10).1.filter
            (fun p => p.titre = "Digital Item".toList)).length = 1) :=
  ⟨by decide, by decide, by decide⟩

/-- **C3, amended.**  The JSON list loop emits one record per raw item —
nothing is dropped, because every record's title is non-empty: an item with
no derivable title receives the substitute title `"Digital Item"`. -/
theorem C3_json_emits_every_item :
    ∀ (cat url : Str) (its : List JsonItem),
      process_json_list cat url its = its.map (fun it => create_product_from_json it cat url)
      ∧ (process_json_list cat url its).length = its.length
      ∧ ∀ it ∈ its, (create_product_from_json it cat url).titre ≠ [] ∧
          (clean_text ((json_get_title it).take 50) = [] →
            (create_product_from_json it cat url).titre = "Digital Item".toList) := by
  intro cat url its
  refine ⟨process_json_list_map cat url its, ?_, ?_⟩
  · rw [process_json_list_map cat url its, List.length_map]
  · intro it _
    exact ⟨create_product_from_json_titre it cat url, create_product_from_json_title_sub it cat url⟩

/-- Witness for C3: a singleton list holding the title-less item yields one
record titled `"Digital Item"`. -/
theorem C3_witness :
    process_json_list ("c".toList) urlA [jsonNoTitle]
      = [create_product_from_json jsonNoTitle ("c".toList) urlA]
    ∧ (create_product_from_json jsonNoTitle ("c".toList) urlA).titre = "Digital Item".toList := by
  have h := C3_json_emits_every_item ("c".toList) urlA [jsonNoTitle]
  exact ⟨by rw [h.1]; rfl, (h.2.2 jsonNoTitle (by decide)).2 (by decide)⟩

/-- **C7, counterexample.**  A JSON-path record with no discoverable
availability does not receive the markup path's `Disponible` default: under
availability draw 1 it is classified `Rupture`. -/
theorem C7_counterexample :
    (create_product_from_json jsonAvailDraw1 ("jsonplaceholder_posts".toList) urlA).disponibilite
      = "Rupture".toList
    ∧ (create_product_from_json jsonAvailDraw1 ("jsonplaceholder_posts".toList) urlA).disponibilite
      ≠ "Disponible".toList :=
  ⟨by decide, by decide⟩

/-- **C7, amended.**  Markup availability: `Disponible` when no selector
matches; `Rupture` exactly when the cleaned lowercased matched text
contains `out` or `rupture`; otherwise `Disponible`.  A JSON-path record's
availability is drawn uniformly from {`Disponible`, `Rupture`} — it is one
of the two values, but not the markup default. -/
theorem C7_availability :
    (classify_avail none = "Disponible".toList)
  ∧ (∀ t, (containsSub ("out".toList) (pyLower (clean_text t)) = true
        ∨ containsSub ("rupture".toList) (pyLower (clean_text t)) = true) →
      classify_avail (some t) = "Rupture".toList)
  ∧ (∀ t, containsSub ("out".toList) (pyLower (clean_text t)) = false →
      containsSub ("rupture".toList) (pyLower (clean_text t)) = false →
      classify_avail (some t) = "Disponible".toList)
  ∧ (∀ (it : JsonItem) (cat url : Str),
      (create_product_from_json it cat url).disponibilite = "Disponible".toList
      ∨ (create_product_from_json it cat url).disponibilite = "Rupture".toList) := by
  refine ⟨rfl, ?_, ?_, fun it cat url => create_product_from_json_dispo it cat url⟩
  · intro t ht
    unfold classify_avail
    try dsimp only
    rw [if_pos (by rw [Bool.or_eq_true]; exact ht)]
  · intro t h1 h2
    unfold classify_avail
    try dsimp only
    rw [if_neg (by
      intro hcon
      rw [Bool.or_eq_true] at hcon
      rcases hcon with h | h
      · exact absurd (h1.symm.trans h) (by decide)
      · exact absurd (h2.symm.trans h) (by decide))]

/-- Witness for C7: the text `"Out of stock"` classifies as `Rupture`. -/
theorem C7_witness :
    classify_avail (some ("Out of stock".toList)) = "Rupture".toList :=
  C7_availability.2.1 ("Out of stock".toList) (Or.inl (by decide))

/-- **C8.**  `_make_request` performs at most 3 attempts: it returns the
response of the first successful attempt, sleeping `2 ** attempt` seconds
after each failed non-final attempt, and returns `None` with backoff sleeps
`[1, 2]` exactly when all 3 attempts fail.  When the fetch of a later page
fails mid-crawl, the category crawl ends at that page and returns the
products already collected from the earlier pages unchanged. -/
theorem C8_retry_and_abort :
    (∀ att : Nat → Option Response,
      (∀ r0, att 0 = some r0 → make_request att 3 = (some r0, []))
      ∧ (att 0 = none → ∀ r1, att 1 = some r1 → make_request att 3 = (some r1, [1]))
      ∧ (att 0 = none → att 1 = none → ∀ r2, att 2 = some r2 →
          make_request att 3 = (some r2, [1, 2]))
      ∧ (att 0 = none → att 1 = none → att 2 = none → make_request att 3 = (none, [1, 2])))
  ∧ (∀ (fetch : Str → Option Response) (isJson : Bool) (sel : SelectorSet) (cat cur nxt : Str)
       (n : Nat), cur ≠ [] → nxt ≠ [] →
      (page_step fetch isJson sel cat cur).2 = some nxt → fetch nxt = none →
      crawl_loop fetch isJson sel cat (n + 2) cur
        = ((page_step fetch isJson sel cat cur).1, [cur, nxt])) := by
  constructor
  · intro att
    refine ⟨?_, ?_, ?_, ?_⟩
    · intro r0 h0
      simp [make_request, make_request_aux, h0]
    · intro h0 r1 h1
      simp [make_request, make_request_aux, h0, h1]
    · intro h0 h1 r2 h2
      simp [make_request, make_request_aux, h0, h1, h2]
    · intro h0 h1 h2
      simp [make_request, make_request_aux, h0, h1, h2]
  · intro fetch isJson sel cat cur nxt n hc hn hst hfail
    exact crawl_loop_fail_second fetch isJson sel cat cur nxt n hc hn hst hfail

/-- Witness for C8: when every attempt fails, the result is `None` after
backoff sleeps of 1 and 2 seconds. -/
theorem C8_witness :
    make_request (fun _ => none) 3 = (none, [1, 2]) :=
  (C8_retry_and_abort.1 (fun _ => none)).2.2.2 rfl rfl rfl

/-- Two concrete extracted records. -/
def prodFixtureA : Product := extract_product_data elemTitled ("books_demo_travel".toList) urlA

def prodFixtureB : Product := extract_product_data elemRatingTen ("books_demo_mystery".toList) urlB

/-- **C9, counterexample.**  The aggregation step adds nothing: merging two
concrete single-record batches returns exactly those records,
field-for-field unchanged, so no provenance label is attached by the
Aggregator.  The derived `source` label is computed inside the extraction
engine (`_extract_product_data` of app_streamlit_scraping.py, line 540),
as the second conjunct evaluates on its category-name input. -/
theorem C9_counterexample :
    scrape_all_diverse_sites [[prodFixtureA], [prodFixtureB]] 1000
      = [prodFixtureA, prodFixtureB]
    ∧ streamlitSourceLabel ("books_demo_travel".toList) = "books".toList :=
  ⟨by decide, by decide⟩

/-- **C9, amended.**  Aggregation is pure concatenation: the final
collection is exactly the per-category batches appended whole and in
processing order (a prefix of the batch list, because the run stops early
once the product target is reached) — no record is filtered, deduplicated,
or mutated, and no field is added by the aggregation step; the provenance
(`source`) label is attached by the extraction engine, not the
aggregator. -/
theorem C9_pure_concatenation :
    ∀ (batches : List (List Product)) (target : Nat),
      ∃ k, scrape_all_diverse_sites batches target = (batches.take k).flatten :=
  fun batches target => scrape_all_aux_prefix target batches 0

/-- **C10, counterexample.**  A kept record whose `lien_produit` — built by
`urljoin` from the anchor's `href` without passing through `_clean_text` —
contains the `;` delimiter used by `save_to_csv`: not every field is
semicolon-free. -/
theorem C10_counterexample :
    process_elements ("c".toList) urlA [elemSemicolonLink]
      = [extract_product_data elemSemicolonLink ("c".toList) urlA]
    ∧ ';' ∈ (extract_product_data elemSemicolonLink ("c".toList) urlA).lien_produit :=
  ⟨by decide, by decide⟩

/-- **C10, amended.**  For every input string, `_clean_text` returns a
string of length at most 300 containing no `;`, `\n` or `\r`; hence the
cleaned text fields of every extracted record (titre, description,
vendeur) are semicolon-free.  The `lien_produit` field, however, is built
by `urljoin` without cleaning and can contain `;` (counterexample). -/
theorem C10_clean_text_bounds :
    (∀ s : Str, (clean_text s).length ≤ 300 ∧ ';' ∉ clean_text s ∧
      '\n' ∉ clean_text s ∧ '\r' ∉ clean_text s)
  ∧ (∀ (e : ProductElement) (cat url : Str),
      ';' ∉ (extract_product_data e cat url).titre
      ∧ ';' ∉ (extract_product_data e cat url).description
      ∧ ';' ∉ (extract_product_data e cat url).vendeur) := by
  constructor
  · exact clean_text_spec
  · intro e cat url
    exact ⟨extract_title_no_semi e, extract_description_no_semi _, semi_not_mem_clean _⟩

/-- Witness for C10: a concrete string holding a semicolon and a newline is
cleaned within bounds. -/
theorem C10_witness :
    (clean_text ("a; b".toList)).length ≤ 300 ∧ ';' ∉ clean_text ("a; b".toList) :=
  ⟨(C10_clean_text_bounds.1 ("a; b".toList)).1, (C10_clean_text_bounds.1 ("a; b".toList)).2.1⟩

end Scraper
